import Mathlib

/-!
Verification of `midi2strudel/midi_to_strudel.py`: a single-pass converter
from parsed MIDI messages to a Strudel pattern string.  The Python script is
shallowly embedded below: tick counts are `ℕ`, durations and tempi are `ℚ`
(the float computations of the script are exact on all decimally
representable values handled here), the insertion-ordered Python dict
`note_on_times` is an association list, and the two nested message loops are
`List.foldl` over tracks and messages.
-/

/-- A parsed MIDI message as delivered by the mido library: a type tag, a
relative time delta in ticks, and, for note messages, pitch and velocity;
for tempo messages, microseconds per beat. -/
inductive Msg where
  | noteOn (time pitch velocity : ℕ)
  | noteOff (time pitch velocity : ℕ)
  | setTempo (time tempo : ℕ)
  | other (time : ℕ)
deriving DecidableEq, Repr

/-- The relative time delta of a message (`msg.time` in mido). -/
def Msg.time : Msg → ℕ
  | .noteOn t _ _ => t
  | .noteOff t _ _ => t
  | .setTempo t _ => t
  | .other t => t

/-- Whether the message is a tempo-set message (`msg.type == "set_tempo"`). -/
def Msg.isSetTempo : Msg → Bool
  | .setTempo _ _ => true
  | _ => false

/-- A track is an ordered sequence of messages. -/
def Track := List Msg

/-- Membership test of the Python dict (`k in d`), keyed by pitch. -/
def dictLookup (d : List (ℕ × ℕ)) (k : ℕ) : Option ℕ :=
  (d.find? (fun e => e.1 = k)).map (fun e => e.2)

/-- Python dict assignment `d[k] = v`: overwrite the entry if the key is
present, otherwise append it. -/
def dictInsert (d : List (ℕ × ℕ)) (k v : ℕ) : List (ℕ × ℕ) :=
  if d.any (fun e => e.1 = k) then
    d.map (fun e => if e.1 = k then (k, v) else e)
  else
    d ++ [(k, v)]

/-- Python dict removal `d.pop(k)` (the removed value is read separately
through `dictLookup`). -/
def dictPop (d : List (ℕ × ℕ)) (k : ℕ) : List (ℕ × ℕ) :=
  d.filter (fun e => e.1 ≠ k)

/-- The mutable module-level state of the script that survives across
tracks: `note_on_times`, `notes` and `durations`. -/
structure PairState where
  note_on_times : List (ℕ × ℕ)
  notes : List ℕ
  durations : List ℚ
deriving Repr

/-- The empty initial state (`notes = []`, `durations = []`,
`note_on_times = \x7b\x7d`). -/
def initState : PairState := ⟨[], [], []⟩

/-- One iteration of the inner message loop of the script (lines 33-41):
advance `current_time` by the delta; a velocity-positive note-on records the
pitch in `note_on_times`; a note-off, or a note-on with velocity 0, whose
pitch has an open entry pops it and appends the pitch and the duration
`(current_time - start_time) / ticks_per_beat`; everything else is ignored.
The accumulator pairs the track-local `current_time` with the global
state. -/
def trackStep (P : ℚ) (acc : ℕ × PairState) (m : Msg) : ℕ × PairState :=
  let ct := acc.1 + m.time
  let st := acc.2
  match m with
  | .noteOn _ pitch vel =>
    if 0 < vel then
      (ct, { st with note_on_times := dictInsert st.note_on_times pitch ct })
    else
      match dictLookup st.note_on_times pitch with
      | some start =>
        (ct, { note_on_times := dictPop st.note_on_times pitch,
               notes := st.notes ++ [pitch],
               durations := st.durations ++ [((ct - start : ℤ) : ℚ) / P] })
      | none => (ct, st)
  | .noteOff _ pitch _ =>
    match dictLookup st.note_on_times pitch with
    | some start =>
      (ct, { note_on_times := dictPop st.note_on_times pitch,
             notes := st.notes ++ [pitch],
             durations := st.durations ++ [((ct - start : ℤ) : ℚ) / P] })
    | none => (ct, st)
  | _ => (ct, st)

/-- Process one track: `current_time` starts at 0, the surrounding state is
inherited. -/
def processTrack (P : ℚ) (st : PairState) (track : List Msg) : PairState :=
  (track.foldl (trackStep P) (0, st)).2

/-- The note-collection loop of the script (lines 31-41): the tracks are
processed one after another; `current_time` is reset to 0 for each track,
while `note_on_times`, `notes` and `durations` are module-level and carry
over from track to track. -/
def processTracks (P : ℚ) (tracks : List (List Msg)) : PairState :=
  tracks.foldl (processTrack P) initState

/-- Follows the words of the spec, for comparison with `processTracks`: the
open-note mapping is reset to empty at the start of every track, and pitches
still open at the end of a track are discarded. -/
def processTracksScoped (P : ℚ) (tracks : List (List Msg)) : PairState :=
  tracks.foldl
    (fun st track =>
      let r := processTrack P { st with note_on_times := [] } track
      { r with note_on_times := [] })
    initState

/-- Division that records the division-by-zero failure mode of the Python
`/` operator instead of totalising it. -/
def checkedDiv (a b : ℚ) : Option ℚ :=
  if b = 0 then none else some (a / b)

/-- Variant of `trackStep` with the duration division checked: identical to the
script, except that a completed pairing with `ticks_per_beat = 0` is a
`ZeroDivisionError`, reported as `none`. -/
def trackStepChecked (P : ℚ) (acc : ℕ × PairState) (m : Msg) :
    Option (ℕ × PairState) :=
  let ct := acc.1 + m.time
  let st := acc.2
  match m with
  | .noteOn _ pitch vel =>
    if 0 < vel then
      some (ct, { st with note_on_times := dictInsert st.note_on_times pitch ct })
    else
      match dictLookup st.note_on_times pitch with
      | some start =>
        (checkedDiv ((ct - start : ℤ) : ℚ) P).map (fun dur =>
          (ct, { note_on_times := dictPop st.note_on_times pitch,
                 notes := st.notes ++ [pitch],
                 durations := st.durations ++ [dur] }))
      | none => some (ct, st)
  | .noteOff _ pitch _ =>
    match dictLookup st.note_on_times pitch with
    | some start =>
      (checkedDiv ((ct - start : ℤ) : ℚ) P).map (fun dur =>
        (ct, { note_on_times := dictPop st.note_on_times pitch,
               notes := st.notes ++ [pitch],
               durations := st.durations ++ [dur] }))
    | none => some (ct, st)
  | _ => some (ct, st)

/-- The note-collection loop with the checked division. -/
def processTracksChecked (P : ℚ) (tracks : List (List Msg)) :
    Option PairState :=
  tracks.foldlM
    (fun st track => (track.foldlM (trackStepChecked P) (0, st)).map (fun r => r.2))
    initState

/-- The tempo-extraction loop (lines 22-25): scan every message of every
track in order and convert each tempo-set value to BPM as
`60000000 / tempo`. -/
def tempo_events (tracks : List (List Msg)) : List ℚ :=
  tracks.foldl
    (fun acc track =>
      track.foldl
        (fun acc m =>
          match m with
          | .setTempo _ t => acc ++ [60000000 / (t : ℚ)]
          | _ => acc)
        acc)
    []

/-- The effective tempo (lines 27-28): first discovered BPM value, default
120 when none exists. -/
def tempo_bpm (tracks : List (List Msg)) : ℚ :=
  match tempo_events tracks with
  | [] => 120
  | t :: _ => t

/-- The multi-tempo warning (lines 60-61): emitted when more than one tempo
event was found, carrying the two interpolated values of the printed
f-string, the count `len(tempo_events)` and the tempo actually used. -/
def tempoWarning (tracks : List (List Msg)) : Option (ℕ × ℚ) :=
  if 1 < (tempo_events tracks).length then
    some ((tempo_events tracks).length, tempo_bpm tracks)
  else
    none

/-- The twelve semitone names of the script (one list literal in the
source; written in two halves here). -/
def noteNames : List String :=
  ["C", "C#", "D", "D#", "E", "F"] ++ ["F#", "G", "G#", "A", "A#", "B"]

/-- Function `note_name` (lines 5-9): semitone name indexed by `pitch mod 12`
concatenated with the octave `pitch div 12 - 1`.  Python `%` and `//` on a
positive divisor agree with the Euclidean `%` and `/` of `ℤ`, so the
function is total on all integers, as the script is. -/
def note_name (midi_note : ℤ) : String :=
  noteNames.getD (midi_note % 12).toNat "" ++ toString (midi_note / 12 - 1)

/-- Recogniser for the pattern `^[A-G]#?-?\d+$`. -/
def matchesNotePattern (s : String) : Bool :=
  match s.toList with
  | [] => false
  | c :: rest =>
    let rest := if rest.head? = some '#' then rest.tail else rest
    let rest := if rest.head? = some '-' then rest.tail else rest
    decide ('A' ≤ c) && decide (c ≤ 'G') && !rest.isEmpty &&
      rest.all (fun d => decide ('0' ≤ d) && decide (d ≤ '9'))

/-- Round-half-to-even on integers, the tie-breaking rule of the Python
built-in `round`. -/
def roundHalfEven (q : ℚ) : ℤ :=
  let f := ⌊q⌋
  if q - f < 1 / 2 then f
  else if 1 / 2 < q - f then f + 1
  else if f % 2 = 0 then f else f + 1

/-- Python `round(q, n)` on exact values: round `q` to `n` decimal places,
ties to even. -/
def pyRound (q : ℚ) (n : ℕ) : ℚ :=
  (roundHalfEven (q * 10 ^ n) : ℚ) / 10 ^ n

/-- Drop trailing decimal zeros from a mantissa with `k` fractional
digits. -/
def stripZeros : ℕ → ℕ → ℕ × ℕ
  | m, 0 => (m, 0)
  | m, k + 1 => if m % 10 = 0 then stripZeros (m / 10) k else (m, k + 1)

/-- Render a mantissa with `k` fractional digits as a decimal string with at
least one digit on each side of the point. -/
def floatStrOfParts (neg : Bool) (m k : ℕ) : String :=
  let (m, k) := stripZeros m k
  let digits := toString m
  let digits :=
    if digits.length ≤ k then
      String.mk (List.replicate (k + 1 - digits.length) '0') ++ digits
    else digits
  let intPart := digits.dropRight k
  let fracPart := if k = 0 then "0" else digits.takeRight k
  (if neg then "-" else "") ++ intPart ++ "." ++ fracPart

/-- The decimal rendering `str(x)` of a Python float whose value is exact in
at most six decimal places (every value the script interpolates has been
rounded to three or four places). -/
def pyFloatRepr (q : ℚ) : String :=
  floatStrOfParts (decide (q < 0)) ⌊q * 10 ^ 6⌋.natAbs 6

/-- Definition `dur_values` (line 45): the durations rounded to 3 decimal places. -/
def dur_values (durations : List ℚ) : List ℚ :=
  durations.map (fun d => pyRound d 3)

/-- Definition `slow_factor` (line 47): `round(120 / tempo_bpm, 4)` guarded by the
truthiness of `tempo_bpm`, with fallback 1.0. -/
def slow_factor (t : ℚ) : ℚ :=
  if t = 0 then 1 else pyRound (120 / t) 4

/-- Variant of `slow_factor` with the division checked: the conditional expression of
line 47 evaluates the division only when `tempo_bpm` is nonzero, so the
checked division is reached only under the guard. -/
def slowFactorChecked (t : ℚ) : Option ℚ :=
  if t = 0 then some 1
  else (checkedDiv 120 t).map (fun q => pyRound q 4)

/-- Definition `cpm_value` (line 48): `round(tempo_bpm * 4, 3)`. -/
def cpm_value (t : ℚ) : ℚ :=
  pyRound (t * 4) 3

/-- The mini-notation string (line 51): tokens `name@dur`, joined by single
spaces. -/
def miniPattern (names : List String) (durs : List ℚ) : String :=
  String.intercalate " "
    ((names.zip durs).map (fun nd => nd.1 ++ "@" ++ pyFloatRepr nd.2))

/-- The printed Strudel line (line 56):
`note("<mini-notation>").cpm(<cpm_value>)`. -/
def strudelLine (names : List String) (durs : List ℚ) (cpm : ℚ) : String :=
  "note(\"" ++ miniPattern names durs ++ "\").cpm(" ++ pyFloatRepr cpm ++ ")"

/-- The printed alternative-tempo line (line 58), always printed, with the
slow factor interpolated. -/
def slowLine (t : ℚ) : String :=
  "   Alternative tempo: .slow(" ++ pyFloatRepr (slow_factor t) ++ ") for relative timing"

/-- Modelled from the spec: the basic-mode top-level script is one of the
two near-duplicate scripts the spec describes and is not under `src/`; per
the spec it emits `n("<space-separated pitch names>").dur("<space-separated
rounded beat durations>")`. -/
def basicLine (names : List String) (durs : List ℚ) : String :=
  "n(\"" ++ String.intercalate " " names ++ "\").dur(\""
    ++ String.intercalate " " (durs.map pyFloatRepr) ++ "\")"

/-- Predicate for messages that open a note: a note-on with velocity
greater than 0 (first branch of the pairing loop). -/
def opensNote (m : Msg) : Bool :=
  match m with
  | .noteOn _ _ v => 0 < v
  | _ => false

/-- Predicate for messages that close an open note: a note message whose
pitch has an open entry in the given table (second branch of the pairing
loop; a note-on with positive velocity is caught by the first branch before
this test is reached). -/
def closesNote (d : List (ℕ × ℕ)) (m : Msg) : Bool :=
  match m with
  | .noteOn _ p _ => (dictLookup d p).isSome
  | .noteOff _ p _ => (dictLookup d p).isSome
  | _ => false

/-- Value a message contributes to the tempo list, if any. -/
def tempoOf (m : Msg) : Option ℚ :=
  match m with
  | .setTempo _ t => some (60000000 / (t : ℚ))
  | _ => none

/-- Input with a note-on in the first track and the matching note-off in
the second track. -/
def tracks_cross : List (List Msg) := [[Msg.noteOn 0 60 64], [Msg.noteOff 5 60 0]]

/-- Input of the end-to-end test: tempo 120 BPM, C4 for one beat and E4 for
half a beat at 480 pulses per beat. -/
def tracks_ex5 : List (List Msg) :=
  [[Msg.setTempo 0 500000, Msg.noteOn 0 60 64, Msg.noteOff 480 60 0,
    Msg.noteOn 0 64 64, Msg.noteOff 240 64 0]]

lemma noteNames_getD_ne_empty (i : ℕ) (h : i < 12) : noteNames.getD i "" ≠ "" := by
  interval_cases i <;> decide

lemma trackStepChecked_eq_some (P : ℚ) (hP : P ≠ 0) (acc : ℕ × PairState) (m : Msg) :
    trackStepChecked P acc m = some (trackStep P acc m) := by
  cases m with
  | noteOn t p v =>
    by_cases hv : 0 < v
    · simp [trackStepChecked, trackStep, hv]
    · simp only [trackStepChecked, trackStep, hv, if_false]
      cases hl : dictLookup acc.2.note_on_times p <;>
        simp [hl, checkedDiv, hP]
  | noteOff t p v =>
    cases hl : dictLookup acc.2.note_on_times p <;>
      simp [trackStepChecked, trackStep, hl, checkedDiv, hP]
  | setTempo t tm => rfl
  | other t => rfl

lemma foldlM_trackStepChecked (P : ℚ) (hP : P ≠ 0) (msgs : List Msg) :
    ∀ acc : ℕ × PairState,
      msgs.foldlM (trackStepChecked P) acc = some (msgs.foldl (trackStep P) acc) := by
  induction msgs with
  | nil => intro acc; rfl
  | cons m ms ih =>
    intro acc
    rw [List.foldlM_cons, trackStepChecked_eq_some P hP]
    simp [ih]

lemma processTracksChecked_eq_some (P : ℚ) (hP : P ≠ 0) (tracks : List (List Msg)) :
    processTracksChecked P tracks = some (processTracks P tracks) := by
  suffices h : ∀ st : PairState,
      tracks.foldlM
        (fun st track => (track.foldlM (trackStepChecked P) (0, st)).map (fun r => r.2))
        st = some (tracks.foldl (processTrack P) st) by
    rw [processTracksChecked, processTracks]; exact h initState
  induction tracks with
  | nil => intro st; rfl
  | cons t ts ih =>
    intro st
    rw [List.foldlM_cons, foldlM_trackStepChecked P hP]
    simp [ih, processTrack]

lemma tempo_events_inner (l : List Msg) :
    ∀ acc : List ℚ,
      l.foldl
        (fun acc m =>
          match m with
          | Msg.setTempo _ t => acc ++ [60000000 / (t : ℚ)]
          | _ => acc)
        acc = acc ++ l.filterMap tempoOf := by
  induction l with
  | nil => intro acc; simp
  | cons m ms ih =>
    intro acc
    cases m <;> simp [List.foldl_cons, tempoOf, ih]

lemma tempo_events_eq (tracks : List (List Msg)) :
    tempo_events tracks = tracks.flatten.filterMap tempoOf := by
  suffices h : ∀ acc : List ℚ,
      tracks.foldl
        (fun acc track =>
          track.foldl
            (fun acc m =>
              match m with
              | Msg.setTempo _ t => acc ++ [60000000 / (t : ℚ)]
              | _ => acc)
            acc)
        acc = acc ++ tracks.flatten.filterMap tempoOf by
    rw [tempo_events, h []]; simp
  induction tracks with
  | nil => intro acc; simp
  | cons t ts ih =>
    intro acc
    rw [List.foldl_cons, tempo_events_inner t acc, ih]
    simp [List.filterMap_append]

lemma length_filterMap_tempoOf (l : List Msg) :
    (l.filterMap tempoOf).length = l.countP Msg.isSetTempo := by
  induction l with
  | nil => rfl
  | cons m ms ih =>
    cases m <;> simp [tempoOf, Msg.isSetTempo, List.countP_cons, ih]

lemma pyFloatRepr_one : pyFloatRepr 1 = "1.0" := by
  have h : ⌊(1 : ℚ) * 10 ^ 6⌋ = 1000000 := by norm_num
  rw [pyFloatRepr, h]; rfl

lemma pyFloatRepr_half : pyFloatRepr (1/2 : ℚ) = "0.5" := by
  have h : ⌊(1/2 : ℚ) * 10 ^ 6⌋ = 500000 := by norm_num
  rw [pyFloatRepr, h]
  have h2 : decide ((1/2 : ℚ) < 0) = false := by norm_num
  rw [h2]; rfl

lemma pyFloatRepr_fourEighty : pyFloatRepr 480 = "480.0" := by
  have h : ⌊(480 : ℚ) * 10 ^ 6⌋ = 480000000 := by norm_num
  rw [pyFloatRepr, h]; rfl

/-- C1 counterexample: on `tracks_cross` the script pairs the note-on of
track 1 with the note-off of track 2 and emits one note event, while the
per-track-scoped reading of the claim emits none, so the open-note mapping
is not reset to empty at the start of each track and a note-on recorded in
one track can be paired with a note-off in a later track. -/
theorem crossTrackPairing_counterexample :
    (processTracks 1 tracks_cross).notes = [60] ∧
    (processTracksScoped 1 tracks_cross).notes = [] := by
  decide

/-- C1 (amended): only the running absolute time is reset to 0 at the start
of each track (`processTrack` starts its fold at time 0 while inheriting the
rest of the state); the open-note mapping is module-level and carries over,
so a lone velocity-positive note-on track emits nothing by itself but its
entry stays open and pairs with a note-off of a later track, as on
`tracks_cross`, where the start time 0 of track 1 meets the local time 5 of
track 2. -/
theorem openNoteTable_global_across_tracks :
    (∀ (P : ℚ) (tracks : List (List Msg)) (t : List Msg),
      processTracks P (tracks ++ [t]) = processTrack P (processTracks P tracks) t) ∧
    (∀ (P : ℚ) (tracks : List (List Msg)) (d p v : ℕ), 0 < v →
      (processTracks P (tracks ++ [[Msg.noteOn d p v]])).notes
          = (processTracks P tracks).notes ∧
      (processTracks P (tracks ++ [[Msg.noteOn d p v]])).durations
          = (processTracks P tracks).durations) ∧
    (processTracks 1 tracks_cross).notes = [60] ∧
    (processTracks 1 tracks_cross).durations = [5] := by
  refine ⟨?_, ?_, by decide, ?_⟩
  · intro P tracks t
    simp [processTracks, List.foldl_append]
  · intro P tracks d p v hv
    rw [processTracks, List.foldl_append]
    simp [processTrack, trackStep, hv]
    exact ⟨rfl, rfl⟩
  · norm_num [processTracks, processTrack, trackStep, initState, Msg.time,
      dictInsert, dictLookup, dictPop, tracks_cross]

/-- C1 witness: the amended theorem applied to the empty track list and a
lone note-on of pitch 60 with velocity 64. -/
theorem openNoteTable_global_across_tracks_witness :
    (processTracks 1 ([] ++ [[Msg.noteOn 0 60 64]])).notes
        = (processTracks 1 []).notes ∧
    (processTracks 1 ([] ++ [[Msg.noteOn 0 60 64]])).durations
        = (processTracks 1 []).durations :=
  openNoteTable_global_across_tracks.2.1 1 [] 0 60 64 (by decide)

/-- C2: a track with a note-on, a second note-on for the same pitch with no
intervening note-off, and then a note-off yields exactly one note event,
whose duration is measured from the time of the second note-on (delta
`d3` to the note-off), not from the first (which would give
`(d2 + d3) / P`). -/
theorem noteOn_overwrite_semantics (p v1 v2 d1 d2 d3 : ℕ) (P : ℚ)
    (h1 : 0 < v1) (h2 : 0 < v2) (hd2 : 0 < d2) (hP : P ≠ 0) :
    (processTracks P [[Msg.noteOn d1 p v1, Msg.noteOn d2 p v2,
        Msg.noteOff d3 p 0]]).notes = [p] ∧
    (processTracks P [[Msg.noteOn d1 p v1, Msg.noteOn d2 p v2,
        Msg.noteOff d3 p 0]]).durations = [(d3 : ℚ) / P] ∧
    (processTracks P [[Msg.noteOn d1 p v1, Msg.noteOn d2 p v2,
        Msg.noteOff d3 p 0]]).durations ≠ [((d2 : ℚ) + d3) / P] := by
  have hds : (processTracks P [[Msg.noteOn d1 p v1, Msg.noteOn d2 p v2,
      Msg.noteOff d3 p 0]]).durations = [(d3 : ℚ) / P] := by
    simp [processTracks, processTrack, trackStep, initState, Msg.time,
      dictInsert, dictLookup, dictPop, h1, h2]
  refine ⟨?_, hds, ?_⟩
  · simp [processTracks, processTrack, trackStep, initState, Msg.time,
      dictInsert, dictLookup, dictPop, h1, h2]
  · rw [hds]
    intro hcontra
    simp only [List.cons.injEq, and_true] at hcontra
    rw [div_eq_div_iff hP hP] at hcontra
    have hq := mul_right_cancel₀ hP hcontra
    have : d3 = d2 + d3 := by exact_mod_cast hq
    omega

/-- C2 witness: pitch 60, both velocities 64, deltas 0, 10 and 480, one
pulse per beat. -/
theorem noteOn_overwrite_semantics_witness :
    (processTracks 1 [[Msg.noteOn 0 60 64, Msg.noteOn 10 60 64,
        Msg.noteOff 480 60 0]]).notes = [60] ∧
    (processTracks 1 [[Msg.noteOn 0 60 64, Msg.noteOn 10 60 64,
        Msg.noteOff 480 60 0]]).durations = [((480 : ℕ) : ℚ) / 1] ∧
    (processTracks 1 [[Msg.noteOn 0 60 64, Msg.noteOn 10 60 64,
        Msg.noteOff 480 60 0]]).durations ≠ [(((10 : ℕ) : ℚ) + ((480 : ℕ) : ℚ)) / 1] :=
  noteOn_overwrite_semantics 60 64 64 0 10 480 1 (by decide) (by decide)
    (by decide) one_ne_zero

/-- C3: a single track with one velocity-positive note-on at tick 0 and one
note-off for the same pitch at tick `T` yields exactly one note event with
duration `T / P` beats, and the closing message pops the open entry of the
pitch. -/
theorem single_note_roundtrip (T p v : ℕ) (P : ℚ) (hv : 0 < v) (hP : P ≠ 0) :
    processTracks P [[Msg.noteOn 0 p v, Msg.noteOff T p 0]]
      = ⟨[], [p], [(T : ℚ) / P]⟩ := by
  simp [processTracks, processTrack, trackStep, initState, Msg.time,
    dictInsert, dictLookup, dictPop, hv]

/-- C3 witness: tick count 480, pitch 60, velocity 64, one pulse per
beat. -/
theorem single_note_roundtrip_witness :
    processTracks 1 [[Msg.noteOn 0 60 64, Msg.noteOff 480 60 0]]
      = ⟨[], [60], [((480 : ℕ) : ℚ) / 1]⟩ :=
  single_note_roundtrip 480 60 64 1 (by decide) one_ne_zero

/-- C4: tempo extraction scans every message of every track in order and
converts each tempo-set value `m` to `60000000 / m` BPM, appended in file
order, so the list has one entry per tempo-set message; the effective tempo
is the first element, or 120 when the list is empty; the warning is emitted
exactly when more than one tempo value was found and carries the count and
the tempo used; for tempo values 500000 and 600000 the list is [120, 100],
the effective tempo is 120 and the warning carries the count 2. -/
theorem tempo_extraction_spec :
    (∀ tracks : List (List Msg),
      tempo_events tracks = tracks.flatten.filterMap tempoOf) ∧
    (∀ tracks : List (List Msg),
      (tempo_events tracks).length = tracks.flatten.countP Msg.isSetTempo) ∧
    (∀ tracks : List (List Msg), tempo_bpm tracks = (tempo_events tracks).headD 120) ∧
    (∀ tracks : List (List Msg),
      tempoWarning tracks =
        if 1 < (tempo_events tracks).length then
          some ((tempo_events tracks).length, tempo_bpm tracks)
        else none) ∧
    tempo_events [[Msg.setTempo 0 500000, Msg.setTempo 0 600000]] = [120, 100] ∧
    tempo_bpm [[Msg.setTempo 0 500000, Msg.setTempo 0 600000]] = 120 ∧
    tempoWarning [[Msg.setTempo 0 500000, Msg.setTempo 0 600000]] = some (2, 120) := by
  refine ⟨tempo_events_eq, ?_, ?_, fun tracks => rfl, ?_, ?_, ?_⟩
  · intro tracks
    rw [tempo_events_eq]
    exact length_filterMap_tempoOf _
  · intro tracks
    rw [tempo_bpm]
    cases h : tempo_events tracks <;> simp [h]
  · norm_num [tempo_events]
  · norm_num [tempo_bpm, tempo_events]
  · norm_num [tempoWarning, tempo_bpm, tempo_events]

/-- C5: end to end on `tracks_ex5` (C4 for one beat, E4 for half a beat,
480 pulses per beat, tempo 120 BPM) the pitch names are C4 and E4, the
rounded durations are 1 and 1/2, basic mode emits
`n("C4 E4").dur("1.0 0.5")` and mini-notation mode emits
`note("C4@1.0 E4@0.5").cpm(480.0)`, each token being the pitch name, an `@`
and the rounded duration, joined by single spaces. -/
theorem end_to_end_render :
    ((processTracks 480 tracks_ex5).notes.map (fun n => note_name (n : ℤ)))
        = ["C4", "E4"] ∧
    dur_values (processTracks 480 tracks_ex5).durations = [1, 1/2] ∧
    basicLine ((processTracks 480 tracks_ex5).notes.map (fun n => note_name (n : ℤ)))
        (dur_values (processTracks 480 tracks_ex5).durations)
      = "n(\"C4 E4\").dur(\"1.0 0.5\")" ∧
    strudelLine ((processTracks 480 tracks_ex5).notes.map (fun n => note_name (n : ℤ)))
        (dur_values (processTracks 480 tracks_ex5).durations)
        (cpm_value (tempo_bpm tracks_ex5))
      = "note(\"C4@1.0 E4@0.5\").cpm(480.0)" ∧
    (∀ (names : List String) (durs : List ℚ),
      miniPattern names durs = String.intercalate " "
        ((names.zip durs).map (fun nd => nd.1 ++ "@" ++ pyFloatRepr nd.2))) := by
  have hnotes : (processTracks 480 tracks_ex5).notes = [60, 64] := by decide
  have hdurs : (processTracks 480 tracks_ex5).durations = [1, 1/2] := by
    norm_num [processTracks, processTrack, trackStep, initState, Msg.time,
      dictInsert, dictLookup, dictPop, tracks_ex5]
  have hr1 : pyRound 1 3 = 1 := by norm_num [pyRound, roundHalfEven]
  have hr2 : pyRound (1/2 : ℚ) 3 = 1/2 := by norm_num [pyRound, roundHalfEven]
  have hdv : dur_values (processTracks 480 tracks_ex5).durations = [1, 1/2] := by
    rw [hdurs]; simp only [dur_values, List.map_cons, List.map_nil, hr1, hr2]
  have hmap : (([60, 64] : List ℕ).map (fun n => note_name (n : ℤ))) = ["C4", "E4"] := by
    decide
  have htempo : tempo_bpm tracks_ex5 = 120 := by
    norm_num [tempo_bpm, tempo_events, tracks_ex5]
  have hcpm : cpm_value (tempo_bpm tracks_ex5) = 480 := by
    rw [htempo]; norm_num [cpm_value, pyRound, roundHalfEven]
  refine ⟨by rw [hnotes, hmap], hdv, ?_, ?_, fun names durs => rfl⟩
  · rw [hnotes, hmap, hdv]
    simp only [basicLine, List.map_cons, List.map_nil, pyFloatRepr_one, pyFloatRepr_half]
    rfl
  · rw [hnotes, hmap, hdv, hcpm]
    simp only [strudelLine, miniPattern, List.zip_cons_cons, List.zip_nil_right,
      List.map_cons, List.map_nil, pyFloatRepr_one, pyFloatRepr_half,
      pyFloatRepr_fourEighty]
    rfl

/-- C6 counterexample: with effective tempo 0 the script does not skip the
slow factor; the guarded conditional falls back to the numeric value 1 and
the printed line carries `.slow(1.0)`, contradicting the claim that no
numeric slow factor is emitted. -/
theorem slowFactor_zero_prints_counterexample :
    slow_factor 0 = 1 ∧
    slowLine 0 = "   Alternative tempo: .slow(1.0) for relative timing" := by
  have hsf0 : slow_factor 0 = 1 := by simp [slow_factor]
  refine ⟨hsf0, ?_⟩
  rw [slowLine, hsf0, pyFloatRepr_one]; rfl

/-- C6 (amended): the slow-factor computation is guarded against division
by zero — the checked model never fails, the division being reached only
under the nonzero guard — and at effective tempo 0 the slow factor falls
back to 1 and is printed as the numeric value `.slow(1.0)` rather than
being skipped. -/
theorem slowFactor_zero_guard :
    (∀ t : ℚ, slowFactorChecked t = some (slow_factor t)) ∧
    slow_factor 0 = 1 ∧
    slowLine 0 = "   Alternative tempo: .slow(1.0) for relative timing" := by
  have hsf0 : slow_factor 0 = 1 := by simp [slow_factor]
  refine ⟨?_, hsf0, ?_⟩
  · intro t
    by_cases ht : t = 0
    · simp [slowFactorChecked, slow_factor, ht]
    · simp [slowFactorChecked, slow_factor, checkedDiv, ht]
  · rw [slowLine, hsf0, pyFloatRepr_one]; rfl

/-- C7: the renderer computes `cpm_value` as the tempo times 4 rounded to 3
decimal places and, whenever the tempo is nonzero, `slow_factor` as 120
divided by the tempo rounded to 4 decimal places; with no tempo-set message
in the input the effective tempo is 120 BPM and the cycles-per-minute value
is 480. -/
theorem renderer_tempo_formulas :
    (∀ t : ℚ, cpm_value t = pyRound (t * 4) 3) ∧
    (∀ t : ℚ, t ≠ 0 → slow_factor t = pyRound (120 / t) 4) ∧
    (∀ tracks : List (List Msg), (∀ m ∈ tracks.flatten, m.isSetTempo = false) →
      tempo_bpm tracks = 120 ∧ cpm_value (tempo_bpm tracks) = 480) := by
  refine ⟨fun t => rfl, fun t ht => by simp [slow_factor, ht], ?_⟩
  intro tracks h
  have hev : tempo_events tracks = [] := by
    rw [tempo_events_eq, List.filterMap_eq_nil_iff]
    intro m hm
    have := h m hm
    cases m <;> simp_all [tempoOf, Msg.isSetTempo]
  have hbpm : tempo_bpm tracks = 120 := by rw [tempo_bpm, hev]
  exact ⟨hbpm, by rw [hbpm]; norm_num [cpm_value, pyRound, roundHalfEven]⟩

/-- C7 witness: the slow-factor formula at tempo 1 and the defaults on a
track with a single non-tempo message. -/
theorem renderer_tempo_formulas_witness :
    slow_factor 1 = pyRound (120 / 1) 4 ∧
    tempo_bpm [[Msg.other 0]] = 120 ∧
    cpm_value (tempo_bpm [[Msg.other 0]]) = 480 :=
  ⟨renderer_tempo_formulas.2.1 1 one_ne_zero,
   (renderer_tempo_formulas.2.2 [[Msg.other 0]] (by decide)).1,
   (renderer_tempo_formulas.2.2 [[Msg.other 0]] (by decide)).2⟩

/-- C8: for every pitch 0 to 127, `note_name` returns a string matching the
pattern `[A-G]`, optional sharp, optional minus sign, digits; on every
integer it equals the semitone name indexed by the pitch modulo 12
concatenated with the octave (pitch divided by 12, floor) minus 1, and it
always returns a nonempty string, also outside the range 0 to 127. -/
theorem note_name_spec :
    (∀ p : ℕ, p ≤ 127 → matchesNotePattern (note_name p) = true) ∧
    (∀ z : ℤ, note_name z
        = noteNames.getD (z % 12).toNat "" ++ toString (z / 12 - 1) ∧
      note_name z ≠ "") := by
  refine ⟨by decide, fun z => ⟨rfl, ?_⟩⟩
  have h0 : 0 ≤ z % 12 := Int.emod_nonneg z (by norm_num)
  have h1 : z % 12 < 12 := Int.emod_lt_of_pos z (by norm_num)
  have h3 := noteNames_getD_ne_empty (z % 12).toNat (by omega)
  intro hcontra
  apply h3
  apply String.ext
  have hdata := congrArg String.data hcontra
  rw [note_name, String.data_append] at hdata
  exact (List.append_eq_nil.mp hdata).1

/-- C8 witness: pitch 60 matches the pattern and pitch 200 is still
named. -/
theorem note_name_spec_witness :
    matchesNotePattern (note_name 60) = true ∧ note_name 200 ≠ "" :=
  ⟨note_name_spec.1 60 (by decide), (note_name_spec.2 200).2⟩

/-- C9: a message that neither opens a note (velocity-positive note-on) nor
closes one (note message whose pitch has an open entry) leaves the open-note
mapping, the note list and the duration list unchanged, while its time delta
still advances the running absolute time. -/
theorem ignored_message_frame (P : ℚ) (ct : ℕ) (st : PairState) (m : Msg)
    (h1 : opensNote m = false) (h2 : closesNote st.note_on_times m = false) :
    trackStep P (ct, st) m = (ct + m.time, st) := by
  cases m with
  | noteOn t p v =>
    simp [opensNote] at h1
    simp only [closesNote] at h2
    simp [trackStep, Msg.time, h1]
    cases hl : dictLookup st.note_on_times p with
    | some s => rw [hl] at h2; simp at h2
    | none => simp
  | noteOff t p v =>
    simp only [closesNote] at h2
    cases hl : dictLookup st.note_on_times p with
    | some s => rw [hl] at h2; simp at h2
    | none => simp [trackStep, Msg.time, hl]
  | setTempo t tm => simp [trackStep, Msg.time]
  | other t => simp [trackStep, Msg.time]

/-- C9 witness: an orphaned note-off with delta 3 at time 7 on the empty
state only advances the time. -/
theorem ignored_message_frame_witness :
    trackStep 480 (7, initState) (Msg.noteOff 3 60 0) = (10, initState) :=
  ignored_message_frame 480 7 initState (Msg.noteOff 3 60 0) (by decide) (by decide)

/-- C10: with a nonzero pulses-per-beat value the note pairing never
divides by zero — the checked model succeeds on every input and agrees with
the unchecked one — while with pulses-per-beat 0 a completed pairing reaches
the unguarded division and fails. -/
theorem duration_division_no_zero_guard :
    (∀ (P : ℚ) (tracks : List (List Msg)), P ≠ 0 →
      processTracksChecked P tracks = some (processTracks P tracks)) ∧
    processTracksChecked 0 [[Msg.noteOn 0 60 64, Msg.noteOff 480 60 0]] = none :=
  ⟨fun P tracks hP => processTracksChecked_eq_some P hP tracks, rfl⟩

/-- C10 witness: the checked pairing at one pulse per beat on the
single-note input. -/
theorem duration_division_no_zero_guard_witness :
    processTracksChecked 1 [[Msg.noteOn 0 60 64, Msg.noteOff 480 60 0]]
      = some (processTracks 1 [[Msg.noteOn 0 60 64, Msg.noteOff 480 60 0]]) :=
  duration_division_no_zero_guard.1 1 [[Msg.noteOn 0 60 64, Msg.noteOff 480 60 0]]
    one_ne_zero
